import Mathlib

/-!
Verification development for the AI risk mapping bot (`app.py`).

The program's logic lives in `get_risk_mapping` and the button handler:
the raw model text is whitespace-trimmed, optional code-fence markers are
stripped with Python's `str.strip(chars)` (a character-set strip, not a
prefix removal), the remainder goes through `json.loads`, and on any
exception an error dictionary is returned whose message embeds the current
value of the `raw_text` variable.  The UI layer checks the credential
environment variable before invoking the pipeline, branches on the presence
of an `"error"` key in the returned dictionary, and renders the six fields
with `.get(key, "N/A")` defaults.

Texts are modelled as `List Char`.  `json.loads` is modelled by a fueled,
structurally recursive parser over the JSON grammar that Python's strict
decoder accepts (objects, arrays, strings with escapes, numbers, literals,
and the NaN/Infinity constants); numbers are carried as their source
lexemes, which preserves parse success/failure exactly (no claim depends on
float re-formatting).  Python's line/column suffixes on decoder messages
are not reproduced; the error descriptions play the role of `str(e)`.
-/

/-- The double-quote character (written via its code point to keep string
literals in this file readable). -/
def qmark : Char := Char.ofNat 34

/-- The backslash character. -/
def bslash : Char := Char.ofNat 92

/-- Opening curly brace. -/
def lbrace : Char := Char.ofNat 123

/-- Closing curly brace. -/
def rbrace : Char := Char.ofNat 125

/-- Opening square bracket. -/
def lbrack : Char := Char.ofNat 91

/-- Closing square bracket. -/
def rbrack : Char := Char.ofNat 93

/-- The backtick character used by code fences. -/
def btChar : Char := Char.ofNat 96

/-- The character set stripped by Python's no-argument `str.strip()`
(ASCII whitespace; the unicode whitespace Python also strips never occurs
in the texts the claims quantify over). -/
def pyWsChars : List Char := [' ', '\t', '\n', '\r', Char.ofNat 11, Char.ofNat 12]

/-- Whitespace accepted between JSON tokens by Python's `json.loads`. -/
def jsonWsChars : List Char := [' ', '\t', '\n', '\r']

/-- Boolean test for JSON inter-token whitespace. -/
def isJsonWs (c : Char) : Bool := jsonWsChars.contains c

/-- Skip JSON inter-token whitespace. -/
def skipWs (s : List Char) : List Char := s.dropWhile isJsonWs

/-- Left part of Python's `str.strip(chars)`: drop leading characters that
occur in the set `cs`. -/
def stripLeftChars (cs s : List Char) : List Char := s.dropWhile (fun c => cs.contains c)

/-- Python's `str.strip(chars)`: remove from both ends every character that
occurs in `cs` (a set-based strip, not prefix/suffix removal). -/
def pyStripChars (cs s : List Char) : List Char :=
  ((stripLeftChars cs s).reverse.dropWhile (fun c => cs.contains c)).reverse

/-- Python's no-argument `str.strip()` as used on `response.text`. -/
def pyTrim (s : List Char) : List Char := pyStripChars pyWsChars s

/-- Parsed JSON values as `json.loads` produces them.  Numbers keep their
source lexeme (see the file comment). -/
inductive Json where
  | str (s : String)
  | numLit (lexeme : String)
  | bool (b : Bool)
  | null
  | arr (elems : List Json)
  | obj (pairs : List (String × Json))

/-- Hexadecimal digit value, for `\uXXXX` escapes. -/
def hexVal (c : Char) : Option Nat :=
  if '0' ≤ c ∧ c ≤ '9' then some (c.toNat - 48)
  else if 'a' ≤ c ∧ c ≤ 'f' then some (c.toNat - 87)
  else if 'A' ≤ c ∧ c ≤ 'F' then some (c.toNat - 55)
  else none

/-- Single-character JSON string escapes. -/
def escChar (c : Char) : Option Char :=
  if c = qmark then some qmark
  else if c = bslash then some bslash
  else if c = '/' then some '/'
  else if c = 'b' then some (Char.ofNat 8)
  else if c = 'f' then some (Char.ofNat 12)
  else if c = 'n' then some '\n'
  else if c = 'r' then some '\r'
  else if c = 't' then some '\t'
  else none

/-- Parse the body of a JSON string after the opening quote, per Python's
strict decoder: plain characters up to the closing quote, escapes, and a
rejection of raw control characters.  Surrogate code points from `\uXXXX`
are not valid Lean characters and are mapped to the replacement character
(no claim exercises them).  Returns the decoded characters and the rest of
the input. -/
def parseStringRest : List Char → Option (List Char × List Char)
  | [] => none
  | c :: rest =>
    if c = qmark then some ([], rest)
    else if c = bslash then
      match rest with
      | [] => none
      | e :: rest2 =>
        if e = 'u' then
          match rest2 with
          | h1 :: h2 :: h3 :: h4 :: rest3 =>
            match hexVal h1, hexVal h2, hexVal h3, hexVal h4 with
            | some a, some b, some c2, some d =>
              let n := ((a * 16 + b) * 16 + c2) * 16 + d
              let ch := if n < 55296 ∨ 57344 ≤ n then Char.ofNat n else Char.ofNat 65533
              match parseStringRest rest3 with
              | some (cs, r) => some (ch :: cs, r)
              | none => none
            | _, _, _, _ => none
          | _ => none
        else
          match escChar e with
          | some ch =>
            match parseStringRest rest2 with
            | some (cs, r) => some (ch :: cs, r)
            | none => none
          | none => none
    else if c.toNat < 32 then none
    else
      match parseStringRest rest with
      | some (cs, r) => some (c :: cs, r)
      | none => none

/-- Integer part of a JSON number: `0` or a nonzero digit followed by
digits (leading zeros are not absorbed, matching Python's number regex). -/
def parseIntPart : List Char → Option (List Char × List Char)
  | [] => none
  | c :: rest =>
    if c = '0' then some ([c], rest)
    else if '1' ≤ c ∧ c ≤ '9' then
      some (c :: rest.takeWhile Char.isDigit, rest.dropWhile Char.isDigit)
    else none

/-- Optional fraction part `.digits` of a JSON number. -/
def parseFracPart : List Char → (List Char × List Char)
  | [] => ([], [])
  | c :: rest =>
    if c = '.' then
      match rest.takeWhile Char.isDigit with
      | [] => ([], c :: rest)
      | ds => (c :: ds, rest.dropWhile Char.isDigit)
    else ([], c :: rest)

/-- Optional exponent part of a JSON number. -/
def parseExpPart : List Char → (List Char × List Char)
  | [] => ([], [])
  | c :: rest =>
    if c = 'e' ∨ c = 'E' then
      match rest with
      | s :: rest2 =>
        if s = '+' ∨ s = '-' then
          match rest2.takeWhile Char.isDigit with
          | [] => ([], c :: rest)
          | ds => (c :: s :: ds, rest2.dropWhile Char.isDigit)
        else
          match rest.takeWhile Char.isDigit with
          | [] => ([], c :: rest)
          | ds => (c :: ds, rest.dropWhile Char.isDigit)
      | [] => ([], c :: rest)
    else ([], c :: rest)

/-- A JSON number lexeme per Python's `NUMBER_RE`, or `none` when the input
does not start with a number. -/
def parseNumber (s : List Char) : Option (List Char × List Char) :=
  match s with
  | [] => none
  | c :: rest =>
    if c = '-' then
      match parseIntPart rest with
      | some (ip, r1) =>
        let fr := parseFracPart r1
        let ex := parseExpPart fr.2
        some (c :: ip ++ fr.1 ++ ex.1, ex.2)
      | none => none
    else
      match parseIntPart s with
      | some (ip, r1) =>
        let fr := parseFracPart r1
        let ex := parseExpPart fr.2
        some (ip ++ fr.1 ++ ex.1, ex.2)
      | none => none

/-- Intermediate results of the recursive-descent decoder. -/
inductive PRes where
  | val (j : Json)
  | members (kvs : List (String × Json))
  | elems (vs : List Json)

/-- Decoder modes: a JSON value, the inside of an object (after `{`), the
member list of a nonempty object, the inside of an array (after `[`), and
the element list of a nonempty array. -/
inductive PMode where
  | value
  | objBody
  | members
  | arrBody
  | elems

/-- One step of the decoder in `value` mode; `next` is the decoder at the
next-smaller fuel.  Dispatch follows Python's scanner: string, object,
array, the `true`/`false`/`null` literals, the `NaN`/`Infinity`/
`-Infinity` constants, and numbers. -/
def valueStep (next : PMode → List Char → Except String (PRes × List Char))
    (s : List Char) : Except String (PRes × List Char) :=
  match s with
  | [] => Except.error "Expecting value"
  | c :: rest =>
    if c = qmark then
      match parseStringRest rest with
      | some (cs, r) => Except.ok (PRes.val (Json.str (String.mk cs)), r)
      | none => Except.error "Unterminated string starting at"
    else if c = lbrace then next PMode.objBody (skipWs rest)
    else if c = lbrack then next PMode.arrBody (skipWs rest)
    else if c = 't' then
      match rest with
      | r1 :: r2 :: r3 :: rr =>
        if r1 = 'r' ∧ r2 = 'u' ∧ r3 = 'e' then Except.ok (PRes.val (Json.bool true), rr)
        else Except.error "Expecting value"
      | _ => Except.error "Expecting value"
    else if c = 'f' then
      match rest with
      | r1 :: r2 :: r3 :: r4 :: rr =>
        if r1 = 'a' ∧ r2 = 'l' ∧ r3 = 's' ∧ r4 = 'e' then Except.ok (PRes.val (Json.bool false), rr)
        else Except.error "Expecting value"
      | _ => Except.error "Expecting value"
    else if c = 'n' then
      match rest with
      | r1 :: r2 :: r3 :: rr =>
        if r1 = 'u' ∧ r2 = 'l' ∧ r3 = 'l' then Except.ok (PRes.val Json.null, rr)
        else Except.error "Expecting value"
      | _ => Except.error "Expecting value"
    else if c = 'N' then
      match rest with
      | r1 :: r2 :: rr =>
        if r1 = 'a' ∧ r2 = 'N' then Except.ok (PRes.val (Json.numLit "NaN"), rr)
        else Except.error "Expecting value"
      | _ => Except.error "Expecting value"
    else if c = 'I' then
      match rest with
      | r1 :: r2 :: r3 :: r4 :: r5 :: r6 :: r7 :: rr =>
        if r1 = 'n' ∧ r2 = 'f' ∧ r3 = 'i' ∧ r4 = 'n' ∧ r5 = 'i' ∧ r6 = 't' ∧ r7 = 'y' then
          Except.ok (PRes.val (Json.numLit "Infinity"), rr)
        else Except.error "Expecting value"
      | _ => Except.error "Expecting value"
    else
      match parseNumber (c :: rest) with
      | some (lex, r) => Except.ok (PRes.val (Json.numLit (String.mk lex)), r)
      | none =>
        if c = '-' then
          match rest with
          | r1 :: r2 :: r3 :: r4 :: r5 :: r6 :: r7 :: r8 :: rr =>
            if r1 = 'I' ∧ r2 = 'n' ∧ r3 = 'f' ∧ r4 = 'i' ∧ r5 = 'n' ∧ r6 = 'i' ∧ r7 = 't' ∧ r8 = 'y' then
              Except.ok (PRes.val (Json.numLit "-Infinity"), rr)
            else Except.error "Expecting value"
          | _ => Except.error "Expecting value"
        else Except.error "Expecting value"

/-- One step of the decoder after an opening brace (whitespace already
skipped): an immediate closing brace yields the empty object, anything
else is handed to the member-list mode. -/
def objBodyStep (next : PMode → List Char → Except String (PRes × List Char))
    (s : List Char) : Except String (PRes × List Char) :=
  match s with
  | [] => Except.error "Expecting property name enclosed in double quotes"
  | c :: rest =>
    if c = rbrace then Except.ok (PRes.val (Json.obj []), rest)
    else
      match next PMode.members (c :: rest) with
      | Except.ok (PRes.members kvs, r) => Except.ok (PRes.val (Json.obj kvs), r)
      | Except.ok (_, _) => Except.error "Internal invariant violation"
      | Except.error e => Except.error e

/-- One step of the decoder on a nonempty member list: a quoted key, a
colon, a value, and then either a comma and further members or the
closing brace. -/
def membersStep (next : PMode → List Char → Except String (PRes × List Char))
    (s : List Char) : Except String (PRes × List Char) :=
  match s with
  | [] => Except.error "Expecting property name enclosed in double quotes"
  | c :: rest =>
    if c = qmark then
      match parseStringRest rest with
      | none => Except.error "Unterminated string starting at"
      | some (kcs, r1) =>
        match skipWs r1 with
        | [] => Except.error "Expecting colon delimiter"
        | c1 :: r2 =>
          if c1 = ':' then
            match next PMode.value (skipWs r2) with
            | Except.error e => Except.error e
            | Except.ok (PRes.val v, r3) =>
              match skipWs r3 with
              | [] => Except.error "Expecting comma delimiter"
              | c2 :: r4 =>
                if c2 = ',' then
                  match next PMode.members (skipWs r4) with
                  | Except.ok (PRes.members kvs, r5) =>
                    Except.ok (PRes.members ((String.mk kcs, v) :: kvs), r5)
                  | Except.ok (_, _) => Except.error "Internal invariant violation"
                  | Except.error e => Except.error e
                else if c2 = rbrace then
                  Except.ok (PRes.members [(String.mk kcs, v)], r4)
                else Except.error "Expecting comma delimiter"
            | Except.ok (_, _) => Except.error "Internal invariant violation"
          else Except.error "Expecting colon delimiter"
    else Except.error "Expecting property name enclosed in double quotes"

/-- One step of the decoder after an opening bracket (whitespace already
skipped). -/
def arrBodyStep (next : PMode → List Char → Except String (PRes × List Char))
    (s : List Char) : Except String (PRes × List Char) :=
  match s with
  | [] => Except.error "Expecting value"
  | c :: rest =>
    if c = rbrack then Except.ok (PRes.val (Json.arr []), rest)
    else
      match next PMode.elems (c :: rest) with
      | Except.ok (PRes.elems vs, r) => Except.ok (PRes.val (Json.arr vs), r)
      | Except.ok (_, _) => Except.error "Internal invariant violation"
      | Except.error e => Except.error e

/-- One step of the decoder on a nonempty element list. -/
def elemsStep (next : PMode → List Char → Except String (PRes × List Char))
    (s : List Char) : Except String (PRes × List Char) :=
  match next PMode.value s with
  | Except.error e => Except.error e
  | Except.ok (PRes.val v, r1) =>
    match skipWs r1 with
    | [] => Except.error "Expecting comma delimiter"
    | c :: r2 =>
      if c = ',' then
        match next PMode.elems (skipWs r2) with
        | Except.ok (PRes.elems vs, r3) => Except.ok (PRes.elems (v :: vs), r3)
        | Except.ok (_, _) => Except.error "Internal invariant violation"
        | Except.error e => Except.error e
      else if c = rbrack then Except.ok (PRes.elems [v], r2)
      else Except.error "Expecting comma delimiter"
  | Except.ok (_, _) => Except.error "Internal invariant violation"

/-- The recursive-descent JSON decoder, structurally recursive on a fuel
argument so that it is kernel-evaluable.  The fuel only decreases on
grammar recursion (values, object members, array elements), never on
character scans; `json_loads` supplies more than enough fuel for every
input, so the fuel bound plays the role of Python's recursion limit. -/
def parseF : Nat → PMode → List Char → Except String (PRes × List Char)
  | 0, _, _ => Except.error "Maximum recursion depth exceeded"
  | Nat.succ fuel, m, s =>
    match m with
    | PMode.value => valueStep (parseF fuel) s
    | PMode.objBody => objBodyStep (parseF fuel) s
    | PMode.members => membersStep (parseF fuel) s
    | PMode.arrBody => arrBodyStep (parseF fuel) s
    | PMode.elems => elemsStep (parseF fuel) s

/-- Parse one JSON value with the given fuel. -/
def parseValueTop (fuel : Nat) (s : List Char) : Except String (Json × List Char) :=
  match parseF fuel PMode.value s with
  | Except.ok (PRes.val v, r) => Except.ok (v, r)
  | Except.ok (_, _) => Except.error "Internal invariant violation"
  | Except.error e => Except.error e

/-- Python's `json.loads`: skip surrounding whitespace, parse one value,
and demand that nothing but whitespace remains. -/
def json_loads (s : List Char) : Except String Json :=
  match parseValueTop (3 * s.length + 3) (skipWs s) with
  | Except.ok (v, rest) => if skipWs rest = [] then Except.ok v else Except.error "Extra data"
  | Except.error e => Except.error e

/-- The fence-stripping and parse step of `get_risk_mapping` (lines 59-70
of `app.py`), applied to the already-trimmed raw text: a JSON-tagged fence
is tested first and stripped with the character set of `"```json"` followed
by a strip with the backtick set; otherwise a plain fence is stripped with
the backtick set; otherwise the text is left unchanged. -/
def cleanRaw (t : List Char) : List Char :=
  if ("```json".toList).isPrefixOf t then
    pyStripChars ("```".toList) (pyStripChars ("```json".toList) t)
  else if ("```".toList).isPrefixOf t then
    pyStripChars ("```".toList) t
  else t

/-- The fixed diagnostic head of the error message built in the `except`
block of `get_risk_mapping`. -/
def aiErrHead : String := "AI Parsing Error: Could not get structured output"

/-- The error message of line 74 of `app.py`: the fixed head, the caught
failure's description, and the first 50 characters of the *current* value
of the `raw_text` variable (the cleaned text when fence-stripping ran). -/
def parseErrorMessage (details : String) (rawAtFailure : List Char) : String :=
  aiErrHead ++ ". Details: " ++ details ++ ". Raw Response (start): "
    ++ String.mk (rawAtFailure.take 50) ++ "..."

/-- The try-body of `get_risk_mapping` from the point where the response
text is in hand: trim, fence-strip, `json.loads`; on a decode failure,
return the error dictionary whose snippet quotes the reassigned `raw_text`
variable, i.e. the cleaned text. -/
def responseExtract (text : List Char) : Json :=
  let cleaned := cleanRaw (pyTrim text)
  match json_loads cleaned with
  | Except.ok v => v
  | Except.error d => Json.obj [("error", Json.str (parseErrorMessage d cleaned))]

/-- Python exceptions that the modelled fragments can raise. -/
inductive PyExc where
  | unboundLocalError (name : String)
  | typeError (msg : String)
  | attributeError (msg : String)
  | keyError (key : String)

/-- Outcome of the `client.models.generate_content` call: either a response
whose `.text` is the given characters, or an exception raised by the
transport/service before any text is captured. -/
inductive ModelResult where
  | ok (text : List Char)
  | raised (desc : String)

/-- `get_risk_mapping` as a function of the remote call's outcome.  When
the call itself raises, control reaches the `except` block with the local
`raw_text` never assigned; evaluating the f-string on line 74 then raises
`UnboundLocalError`, which propagates out of the function (modelled as
`Except.error`). -/
def get_risk_mapping : ModelResult → Except PyExc Json
  | ModelResult.ok text => Except.ok (responseExtract text)
  | ModelResult.raised _ => Except.error (PyExc.unboundLocalError "raw_text")

/-- The fixed instruction preamble of `MASTER_PROMPT` (lines 38-45 of
`app.py`), up to the interpolation point. -/
def promptHead : String :=
  "\nYou are a highly experienced Security Engineer and Risk Consultant.\nYour TASK is to analyze the raw security finding provided below and map it to common security frameworks and controls.\nYour entire response must STRICTLY adhere to the JSON schema provided in the configuration.\n\nRaw Security Finding to Analyze:\n"

/-- The prompt builder: the f-string embeds the finding text verbatim
between the fixed preamble and a trailing newline. -/
def MASTER_PROMPT (finding_text : String) : String :=
  promptHead ++ finding_text ++ "\n"

/-- Python dictionary lookup on the association list produced by the
decoder; with duplicate keys, `json.loads` keeps the last occurrence. -/
def pyDictGetLast (kvs : List (String × Json)) (k : String) : Option Json :=
  match kvs.reverse.find? (fun p => p.1 == k) with
  | some p => some p.2
  | none => none

/-- Python `key in dict`. -/
def pyHasKey (kvs : List (String × Json)) (k : String) : Bool :=
  kvs.any (fun p => p.1 == k)

/-- Contiguous-substring test on character lists. -/
def hasSubstr (needle : List Char) : List Char → Bool
  | [] => needle.isEmpty
  | c :: t => needle.isPrefixOf (c :: t) || hasSubstr needle t

/-- Python's `needle in value` for a string needle: key membership on a
dict, element equality on a list (a string equals only an equal string),
substring test on a string, and `TypeError` on the remaining types. -/
def pyContainsStr (needle : String) (v : Json) : Except PyExc Bool :=
  match v with
  | Json.obj kvs => Except.ok (pyHasKey kvs needle)
  | Json.arr vs =>
    Except.ok (vs.any (fun x =>
      match x with
      | Json.str s => s == needle
      | _ => false))
  | Json.str s => Except.ok (hasSubstr needle.toList s.toList)
  | _ => Except.error (PyExc.typeError "argument of type is not iterable")

/-- Python `value[key]` for a string key: dictionary lookup (`KeyError`
when absent), `TypeError` on anything else. -/
def pyGetItem (v : Json) (k : String) : Except PyExc Json :=
  match v with
  | Json.obj kvs =>
    match pyDictGetLast kvs k with
    | some x => Except.ok x
    | none => Except.error (PyExc.keyError k)
  | _ => Except.error (PyExc.typeError "indices must be integers")

/-- The default shown for a missing field on the success-render path. -/
def NA : Json := Json.str "N/A"

/-- What the result area of the page shows for one request. -/
inductive RenderOutcome where
  | banner (v : Json)
  | results (summary tac tech nfunc ncat remed : Json)
  | raised (e : PyExc)

/-- Lines 97-117 of `app.py`: show the error banner when the returned
mapping contains the key `"error"`, otherwise render the six fields with
`.get(key, "N/A")` defaults.  A non-dictionary value raises where Python
would (`in` on a number, `.get` on a list or string). -/
def renderMapping (d : Json) : RenderOutcome :=
  match pyContainsStr "error" d with
  | Except.error e => RenderOutcome.raised e
  | Except.ok true =>
    match pyGetItem d "error" with
    | Except.ok v => RenderOutcome.banner v
    | Except.error e => RenderOutcome.raised e
  | Except.ok false =>
    match d with
    | Json.obj kvs =>
      RenderOutcome.results
        ((pyDictGetLast kvs "finding_summary").getD NA)
        ((pyDictGetLast kvs "mitre_tactic").getD NA)
        ((pyDictGetLast kvs "mitre_technique").getD NA)
        ((pyDictGetLast kvs "nist_function").getD NA)
        ((pyDictGetLast kvs "nist_category").getD NA)
        ((pyDictGetLast kvs "remediation_suggestion").getD NA)
    | _ => RenderOutcome.raised (PyExc.attributeError "object has no attribute get")

/-- True exactly on the error-banner outcome. -/
def showsBanner : RenderOutcome → Bool
  | RenderOutcome.banner _ => true
  | _ => false

/-- Field projection out of a success render, by schema key. -/
def resultField : RenderOutcome → String → Option Json
  | RenderOutcome.results a b c d e f, k =>
    if k = "finding_summary" then some a
    else if k = "mitre_tactic" then some b
    else if k = "mitre_technique" then some c
    else if k = "nist_function" then some d
    else if k = "nist_category" then some e
    else if k = "remediation_suggestion" then some f
    else none
  | _, _ => none

/-- The six schema keys. -/
def sixKeys : List String :=
  ["finding_summary", "mitre_tactic", "mitre_technique",
   "nist_function", "nist_category", "remediation_suggestion"]

/-- Overall outcome of one button interaction. -/
inductive UIOutcome where
  | idle
  | apiKeyError
  | rendered (r : RenderOutcome)
  | crashed (e : PyExc)

/-- Lines 89-117 of `app.py`: nothing happens unless the button fires with
nonempty input; the environment is checked for the credential before the
pipeline is invoked and a user-visible error shown instead when it is
absent; otherwise `get_risk_mapping` runs and its dictionary is rendered
(an exception escaping `get_risk_mapping` crashes the request). -/
def analyzeClick (pressed : Bool) (userInput : List Char) (envHasKey : Bool)
    (m : ModelResult) : UIOutcome :=
  if pressed && !userInput.isEmpty then
    if !envHasKey then UIOutcome.apiKeyError
    else
      match get_risk_mapping m with
      | Except.ok data => UIOutcome.rendered (renderMapping data)
      | Except.error e => UIOutcome.crashed e
  else UIOutcome.idle

/-- A character that a canonical JSON serialisation can hold inside a
string literal without escaping: not a quote, not a backslash, not a
control character. -/
def safeChar (c : Char) : Bool :=
  !(c == qmark) && !(c == bslash) && decide (32 ≤ c.toNat)

/-- All characters of the list are safe. -/
def safeChars (cs : List Char) : Bool := cs.all safeChar

/-- All keys and values of the pair list are safe. -/
def safePairsB (kvs : List (String × String)) : Bool :=
  kvs.all (fun p => safeChars p.1.toList && safeChars p.2.toList)

/-- Canonical serialisation of one `"key": "value"` member. -/
def serPair (k v : String) : List Char :=
  qmark :: (k.toList ++ (qmark :: ':' :: ' ' :: (qmark :: (v.toList ++ [qmark]))))

/-- Canonical serialisation of an object's member list, comma-separated. -/
def serMembers : List (String × String) → List Char
  | [] => []
  | kv :: rest =>
    serPair kv.1 kv.2 ++ ((if rest.isEmpty then [] else [',', ' ']) ++ serMembers rest)

/-- Canonical serialisation of a JSON object with string values. -/
def serObj (kvs : List (String × String)) : List Char :=
  lbrace :: (serMembers kvs ++ [rbrace])

/-- The record the decoder yields for such an object. -/
def toJsonPairs (kvs : List (String × String)) : List (String × Json) :=
  kvs.map (fun p => (p.1, Json.str p.2))

/-- A canonical six-field response object. -/
def ser6 (a b c d e f : String) : List Char :=
  serObj [("finding_summary", a), ("mitre_tactic", b), ("mitre_technique", c),
          ("nist_function", d), ("nist_category", e), ("remediation_suggestion", f)]

/-- Raw text wrapped in a JSON-tagged code fence. -/
def wrapJson (t : List Char) : List Char :=
  "```json\n".toList ++ t ++ "\n```".toList

/-- Raw text wrapped in a plain (untagged) code fence. -/
def wrapPlain (t : List Char) : List Char :=
  "```\n".toList ++ t ++ "\n```".toList

/-! ### List and string helper lemmas -/

lemma isPrefixOf_cons_cons (a b : Char) (as bs : List Char) :
    (a :: as).isPrefixOf (b :: bs) = (a == b && as.isPrefixOf bs) := rfl

lemma isPrefixOf_append_self (l m : List Char) : l.isPrefixOf (l ++ m) = true := by
  induction l with
  | nil => simp [List.isPrefixOf]
  | cons a as ih => simp [List.cons_append, isPrefixOf_cons_cons, ih]

lemma eq_append_of_isPrefixOf {l t : List Char} (h : l.isPrefixOf t = true) :
    ∃ r, t = l ++ r := by
  induction l generalizing t with
  | nil => exact ⟨t, rfl⟩
  | cons a as ih =>
    cases t with
    | nil => simp [List.isPrefixOf] at h
    | cons b bs =>
      rw [isPrefixOf_cons_cons, Bool.and_eq_true, beq_iff_eq] at h
      obtain ⟨rfl, h2⟩ := h
      obtain ⟨r, rfl⟩ := ih h2
      exact ⟨r, rfl⟩

lemma hasSubstr_parts (pre mid suf : List Char) :
    hasSubstr mid (pre ++ (mid ++ suf)) = true := by
  induction pre with
  | nil =>
    cases mid with
    | nil =>
      cases suf with
      | nil => rfl
      | cons c t => simp [hasSubstr, List.isPrefixOf]
    | cons m ms => simp [hasSubstr, isPrefixOf_append_self]
  | cons p ps ih => simp [hasSubstr, ih]

lemma dropWhile_append_all {p : Char → Bool} {l1 : List Char} (h : l1.all p = true)
    (l2 : List Char) : List.dropWhile p (l1 ++ l2) = List.dropWhile p l2 := by
  induction l1 with
  | nil => rfl
  | cons a as ih =>
    rw [List.all_cons, Bool.and_eq_true] at h
    rw [List.cons_append, List.dropWhile_cons_of_pos h.1, ih h.2]

/-! ### Behaviour of trimming and fence-stripping -/

lemma pyTrim_sandwich (a z : Char) (mid : List Char)
    (ha : a ∉ pyWsChars) (hz : z ∉ pyWsChars) :
    pyTrim (a :: (mid ++ [z])) = a :: (mid ++ [z]) := by
  unfold pyTrim pyStripChars stripLeftChars
  rw [List.dropWhile_cons_of_neg (by simpa using ha)]
  have h1 : (a :: (mid ++ [z])).reverse = z :: (mid.reverse ++ [a]) := by simp
  rw [h1, List.dropWhile_cons_of_neg (by simpa using hz), ← h1, List.reverse_reverse]

lemma pyStripChars_sandwich (cs : List Char) (a z : Char) (mid : List Char)
    (ha : a ∉ cs) (hz : z ∉ cs) :
    pyStripChars cs (a :: (mid ++ [z])) = a :: (mid ++ [z]) := by
  unfold pyStripChars stripLeftChars
  rw [List.dropWhile_cons_of_neg (by simpa using ha)]
  have h1 : (a :: (mid ++ [z])).reverse = z :: (mid.reverse ++ [a]) := by simp
  rw [h1, List.dropWhile_cons_of_neg (by simpa using hz), ← h1, List.reverse_reverse]

lemma pyStripChars_fence (cs : List Char) (opn J cls : List Char)
    (hop : List.dropWhile (fun c => cs.contains c) opn = ['\n'])
    (hcl : List.dropWhile (fun c => cs.contains c) cls.reverse = ['\n']) :
    pyStripChars cs ((opn ++ J) ++ cls) = '\n' :: (J ++ ['\n']) := by
  unfold pyStripChars stripLeftChars
  rw [List.append_assoc, List.dropWhile_append, hop]
  simp only [List.isEmpty, Bool.false_eq_true, if_false, List.cons_append, List.nil_append]
  have h2 : ('\n' :: (J ++ cls)).reverse = cls.reverse ++ (J.reverse ++ ['\n']) := by simp
  rw [h2, List.dropWhile_append, hcl]
  simp

lemma fjCons : "```json".toList = btChar :: btChar :: btChar :: 'j' :: 's' :: 'o' :: 'n' :: [] := by
  decide

lemma fpCons : "```".toList = btChar :: btChar :: btChar :: [] := by decide

lemma cleanRaw_wrapJson (J : List Char) : cleanRaw (wrapJson J) = '\n' :: (J ++ ['\n']) := by
  unfold cleanRaw wrapJson
  have hpre : ("```json".toList).isPrefixOf (("```json\n".toList ++ J) ++ "\n```".toList) = true := by
    have h1 : "```json\n".toList = "```json".toList ++ ['\n'] := by decide
    rw [h1]
    simp only [List.append_assoc]
    exact isPrefixOf_append_self _ _
  rw [if_pos hpre, pyStripChars_fence _ _ _ _ (by decide) (by decide)]
  exact pyStripChars_sandwich _ _ _ _ (by decide) (by decide)

lemma cleanRaw_wrapPlain (J : List Char) : cleanRaw (wrapPlain J) = '\n' :: (J ++ ['\n']) := by
  unfold cleanRaw wrapPlain
  have hnj : ("```json".toList).isPrefixOf (("```\n".toList ++ J) ++ "\n```".toList) = false := by
    rw [fjCons, show "```\n".toList = btChar :: btChar :: btChar :: '\n' :: [] from by decide]
    simp [isPrefixOf_cons_cons, List.cons_append,
      show (('j' : Char) == '\n') = false from by decide]
  have hpl : ("```".toList).isPrefixOf (("```\n".toList ++ J) ++ "\n```".toList) = true := by
    have h1 : "```\n".toList = "```".toList ++ ['\n'] := by decide
    rw [h1]
    simp only [List.append_assoc]
    exact isPrefixOf_append_self _ _
  rw [if_neg (by simp [hnj]), if_pos hpl, pyStripChars_fence _ _ _ _ (by decide) (by decide)]

lemma cleanRaw_noFence (t : List Char)
    (h : ∀ r, t ≠ btChar :: r) : cleanRaw t = t := by
  unfold cleanRaw
  cases t with
  | nil => rfl
  | cons c rest =>
    by_cases hc : c = btChar
    · exact absurd (by rw [hc]) (h rest)
    · rw [if_neg, if_neg]
      · rw [fpCons, isPrefixOf_cons_cons]
        simp [show ∀ c, c ≠ btChar → (btChar == c) = false from fun c hcc => by
          simp [beq_iff_eq]; exact fun he => hcc he.symm, hc]
      · rw [fjCons, isPrefixOf_cons_cons]
        simp [beq_iff_eq]
        intro he
        exact absurd he.symm hc

/-! ### The decoder on canonical serialisations -/

lemma safeChar_spec {c : Char} (h : safeChar c = true) :
    c ≠ qmark ∧ c ≠ bslash ∧ ¬(c.toNat < 32) := by
  unfold safeChar at h
  simp only [Bool.and_eq_true, Bool.not_eq_true', beq_eq_false_iff_ne, decide_eq_true_eq] at h
  exact ⟨h.1.1, h.1.2, by omega⟩

lemma parseStringRest_safe {cs : List Char} (h : safeChars cs = true) (rest : List Char) :
    parseStringRest (cs ++ qmark :: rest) = some (cs, rest) := by
  induction cs with
  | nil =>
    rw [List.nil_append]
    unfold parseStringRest
    rw [if_pos rfl]
  | cons c cs ih =>
    rw [show safeChars (c :: cs) = (safeChar c && safeChars cs) from rfl,
      Bool.and_eq_true] at h
    obtain ⟨h1, h2, h3⟩ := safeChar_spec h.1
    rw [List.cons_append]
    unfold parseStringRest
    rw [if_neg h1, if_neg h2, if_neg h3, ih h.2]

lemma skipWs_cons_of_not {c : Char} (h : isJsonWs c = false) (l : List Char) :
    skipWs (c :: l) = c :: l :=
  List.dropWhile_cons_of_neg (by simp [h])

lemma skipWs_space (l : List Char) : skipWs (' ' :: l) = skipWs l :=
  List.dropWhile_cons_of_pos (by decide)

lemma parseF_value_str (f : Nat) {cs : List Char} (h : safeChars cs = true) (rest : List Char) :
    parseF (f + 1) PMode.value (qmark :: (cs ++ qmark :: rest))
      = Except.ok (PRes.val (Json.str (String.mk cs)), rest) := by
  simp only [parseF, valueStep]
  rw [if_pos trivial, parseStringRest_safe h]

lemma mk_toList (s : String) : String.mk s.toList = s := by cases s; rfl

lemma ws_colon : isJsonWs ':' = false := by decide
lemma ws_qmark : isJsonWs qmark = false := by decide
lemma ws_rbrace : isJsonWs rbrace = false := by decide
lemma ws_comma : isJsonWs ',' = false := by decide

lemma parseF_succ_members (f : Nat) (s : List Char) :
    parseF (f + 1) PMode.members s = membersStep (parseF f) s := rfl

lemma parseF_members_ser (kvs : List (String × String)) :
    safePairsB kvs = true → kvs ≠ [] →
    ∀ fuel rest, kvs.length + 1 ≤ fuel →
      parseF fuel PMode.members (serMembers kvs ++ rbrace :: rest)
        = Except.ok (PRes.members (toJsonPairs kvs), rest) := by
  induction kvs with
  | nil => intro _ hne; exact absurd rfl hne
  | cons kv rest1 ih =>
    intro h hne fuel rest hf
    rw [show safePairsB (kv :: rest1)
        = ((safeChars kv.1.toList && safeChars kv.2.toList) && safePairsB rest1) from rfl,
      Bool.and_eq_true, Bool.and_eq_true] at h
    obtain ⟨⟨hk, hv⟩, hrest⟩ := h
    simp only [String.toList] at hk hv
    simp only [List.length_cons] at hf
    obtain ⟨g, rfl⟩ : ∃ g, fuel = g + 2 := ⟨fuel - 2, by omega⟩
    rw [show (g : Nat) + 2 = (g + 1) + 1 from rfl, parseF_succ_members]
    cases rest1 with
    | nil =>
      simp only [serMembers, serPair, List.isEmpty_nil, if_true, List.append_nil,
        List.cons_append, List.append_assoc, List.nil_append, List.singleton_append]
      simp only [membersStep]
      simp [parseStringRest_safe hk, skipWs_cons_of_not ws_colon,
        skipWs_space, skipWs_cons_of_not ws_qmark, parseF_value_str g hv,
        skipWs_cons_of_not ws_rbrace, show ¬(rbrace = ',') from by decide,
        toJsonPairs, mk_toList]
    | cons kv2 rest2 =>
      simp only [serMembers, serPair, List.isEmpty_cons, if_false, List.cons_append,
        List.append_assoc, List.nil_append, List.singleton_append]
      simp only [membersStep]
      have hrec := ih hrest (by simp) (g + 1) rest (by omega)
      simp [serMembers, serPair, String.toList, List.cons_append,
        List.append_assoc] at hrec
      simp [parseStringRest_safe hk, skipWs_cons_of_not ws_colon,
        skipWs_space, skipWs_cons_of_not ws_qmark, parseF_value_str g hv,
        skipWs_cons_of_not ws_comma, hrec, toJsonPairs, mk_toList]

lemma ws_lbrace : isJsonWs lbrace = false := by decide

lemma parseF_succ_value (f : Nat) (s : List Char) :
    parseF (f + 1) PMode.value s = valueStep (parseF f) s := rfl

lemma parseF_succ_objBody (f : Nat) (s : List Char) :
    parseF (f + 1) PMode.objBody s = objBodyStep (parseF f) s := rfl

lemma skipWs_serMembers_append (p : String × String) (ps : List (String × String))
    (X : List Char) :
    skipWs (serMembers (p :: ps) ++ X) = serMembers (p :: ps) ++ X := by
  simp only [serMembers, serPair, List.cons_append, List.append_assoc]
  exact skipWs_cons_of_not ws_qmark _

lemma parseF_value_serObj (kvs : List (String × String)) (h : safePairsB kvs = true)
    (hne : kvs ≠ []) :
    ∀ fuel rest, kvs.length + 3 ≤ fuel →
      parseF fuel PMode.value (serObj kvs ++ rest)
        = Except.ok (PRes.val (Json.obj (toJsonPairs kvs)), rest) := by
  intro fuel rest hf
  obtain ⟨g, rfl⟩ : ∃ g, fuel = g + 2 := ⟨fuel - 2, by omega⟩
  have hshape : serObj kvs ++ rest = lbrace :: (serMembers kvs ++ rbrace :: rest) := by
    simp [serObj]
  rw [show (g : Nat) + 2 = (g + 1) + 1 from rfl, hshape, parseF_succ_value]
  simp only [valueStep]
  rw [if_neg (show ¬(lbrace = qmark) from by decide), if_pos trivial]
  obtain ⟨p, ps, rfl⟩ : ∃ p ps, kvs = p :: ps := by
    cases kvs with
    | nil => exact absurd rfl hne
    | cons a b => exact ⟨a, b, rfl⟩
  rw [skipWs_serMembers_append, parseF_succ_objBody]
  have hmem := parseF_members_ser (p :: ps) h hne g rest
    (by simp only [List.length_cons] at hf ⊢; omega)
  simp [serMembers, serPair, String.toList, List.cons_append, List.append_assoc] at hmem
  simp only [serMembers, serPair, List.cons_append, List.append_assoc]
  simp [objBodyStep, show ¬(qmark = rbrace) from by decide, hmem]

lemma serPair_length (k v : String) :
    (serPair k v).length = k.toList.length + v.toList.length + 6 := by
  simp only [serPair, List.length_cons, List.length_append, List.length_nil]
  omega

lemma serMembers_cons_cons (p q : String × String) (qs : List (String × String)) :
    serMembers (p :: q :: qs) = serPair p.1 p.2 ++ ([',', ' '] ++ serMembers (q :: qs)) := rfl

lemma serMembers_length_ge (kvs : List (String × String)) :
    kvs.length ≤ (serMembers kvs).length := by
  induction kvs with
  | nil => simp [serMembers]
  | cons p ps ih =>
    cases ps with
    | nil =>
      have hp := serPair_length p.1 p.2
      simp [serMembers]
      omega
    | cons q qs =>
      have hp := serPair_length p.1 p.2
      rw [serMembers_cons_cons]
      simp only [List.length_append, List.length_cons, List.length_nil] at ih ⊢
      omega

lemma json_loads_serObj (kvs : List (String × String)) (h : safePairsB kvs = true)
    (hne : kvs ≠ []) :
    json_loads (serObj kvs) = Except.ok (Json.obj (toJsonPairs kvs)) := by
  unfold json_loads parseValueTop
  have hskip : skipWs (serObj kvs) = serObj kvs := by
    simp only [serObj]
    exact skipWs_cons_of_not ws_lbrace _
  rw [hskip]
  have hlen : kvs.length + 3 ≤ 3 * (serObj kvs).length + 3 := by
    have h1 := serMembers_length_ge kvs
    have h2 : (serObj kvs).length = (serMembers kvs).length + 2 := by
      simp [serObj]
    omega
  have hp := parseF_value_serObj kvs h hne (3 * (serObj kvs).length + 3) [] hlen
  rw [List.append_nil] at hp
  rw [hp]
  simp [skipWs]

lemma skipWs_nl (l : List Char) : skipWs ('\n' :: l) = skipWs l :=
  List.dropWhile_cons_of_pos (by decide)

lemma skipWs_serObj_append (kvs : List (String × String)) (X : List Char) :
    skipWs (serObj kvs ++ X) = serObj kvs ++ X := by
  simp only [serObj, List.cons_append]
  exact skipWs_cons_of_not ws_lbrace _

lemma json_loads_nl_wrap (kvs : List (String × String)) (h : safePairsB kvs = true)
    (hne : kvs ≠ []) :
    json_loads ('\n' :: (serObj kvs ++ ['\n'])) = Except.ok (Json.obj (toJsonPairs kvs)) := by
  unfold json_loads parseValueTop
  rw [skipWs_nl, skipWs_serObj_append]
  have hlen : kvs.length + 3 ≤ 3 * (('\n' :: (serObj kvs ++ ['\n'])).length) + 3 := by
    have h1 := serMembers_length_ge kvs
    have h2 : (serObj kvs).length = (serMembers kvs).length + 2 := by simp [serObj]
    simp only [List.length_cons, List.length_append]
    omega
  rw [parseF_value_serObj kvs h hne _ ['\n'] hlen]
  simp [skipWs, show isJsonWs '\n' = true from by decide]

lemma pyTrim_serObj (kvs : List (String × String)) : pyTrim (serObj kvs) = serObj kvs :=
  pyTrim_sandwich lbrace rbrace (serMembers kvs) (by decide) (by decide)

lemma pyTrim_wrapJson (J : List Char) : pyTrim (wrapJson J) = wrapJson J := by
  have e : wrapJson J = btChar :: (("``json\n".toList ++ (J ++ "\n``".toList)) ++ [btChar]) := by
    unfold wrapJson
    rw [show "```json\n".toList = btChar :: "``json\n".toList from by decide,
      show "\n```".toList = "\n``".toList ++ [btChar] from by decide]
    simp only [List.cons_append, List.append_assoc]
  rw [e, pyTrim_sandwich _ _ _ (by decide) (by decide)]

lemma pyTrim_wrapPlain (J : List Char) : pyTrim (wrapPlain J) = wrapPlain J := by
  have e : wrapPlain J = btChar :: (("``\n".toList ++ (J ++ "\n``".toList)) ++ [btChar]) := by
    unfold wrapPlain
    rw [show "```\n".toList = btChar :: "``\n".toList from by decide,
      show "\n```".toList = "\n``".toList ++ [btChar] from by decide]
    simp only [List.cons_append, List.append_assoc]
  rw [e, pyTrim_sandwich _ _ _ (by decide) (by decide)]

lemma cleanRaw_serObj (kvs : List (String × String)) : cleanRaw (serObj kvs) = serObj kvs := by
  apply cleanRaw_noFence
  intro r he
  simp only [serObj] at he
  injection he with h1 h2
  exact absurd h1 (by decide)

lemma responseExtract_serObj (kvs : List (String × String)) (h : safePairsB kvs = true)
    (hne : kvs ≠ []) : responseExtract (serObj kvs) = Json.obj (toJsonPairs kvs) := by
  simp only [responseExtract]
  rw [pyTrim_serObj, cleanRaw_serObj, json_loads_serObj kvs h hne]

lemma responseExtract_wrapJson (kvs : List (String × String)) (h : safePairsB kvs = true)
    (hne : kvs ≠ []) :
    responseExtract (wrapJson (serObj kvs)) = Json.obj (toJsonPairs kvs) := by
  simp only [responseExtract]
  rw [pyTrim_wrapJson, cleanRaw_wrapJson, json_loads_nl_wrap kvs h hne]

lemma responseExtract_wrapPlain (kvs : List (String × String)) (h : safePairsB kvs = true)
    (hne : kvs ≠ []) :
    responseExtract (wrapPlain (serObj kvs)) = Json.obj (toJsonPairs kvs) := by
  simp only [responseExtract]
  rw [pyTrim_wrapPlain, cleanRaw_wrapPlain, json_loads_nl_wrap kvs h hne]

/-! ### Dictionary and render lemmas -/

lemma strToList_append (a b : String) : (a ++ b).toList = a.toList ++ b.toList := rfl

lemma getLast_of_hasKey {kvs : List (String × Json)} {k : String}
    (h : pyHasKey kvs k = true) : ∃ v, pyDictGetLast kvs k = some v := by
  unfold pyHasKey at h
  unfold pyDictGetLast
  rw [List.any_eq_true] at h
  obtain ⟨x, hx, hpx⟩ := h
  have hsome : (kvs.reverse.find? (fun p => p.1 == k)).isSome = true :=
    List.find?_isSome.mpr ⟨x, List.mem_reverse.mpr hx, hpx⟩
  cases hf : kvs.reverse.find? (fun p => p.1 == k) with
  | none => rw [hf] at hsome; simp at hsome
  | some p => exact ⟨p.2, rfl⟩

lemma getLast_of_not_hasKey {kvs : List (String × Json)} {k : String}
    (h : pyHasKey kvs k = false) : pyDictGetLast kvs k = none := by
  unfold pyDictGetLast
  have hnone : kvs.reverse.find? (fun p => p.1 == k) = none := by
    rw [List.find?_eq_none]
    intro x hx hpx
    have hkey : pyHasKey kvs k = true :=
      List.any_eq_true.mpr ⟨x, List.mem_reverse.mp hx, hpx⟩
    rw [h] at hkey
    exact absurd hkey (by simp)
  rw [hnone]

/-! ### The claims -/

/-- C1 (corrected): the parse step does not check for the six required
keys; a JSON object missing them is returned as a success record.  This
theorem exhibits the amended behaviour universally: any one-key object
with the single field `finding_summary` parses and is returned unchanged,
with no `error` key. -/
theorem claimC1 (s : String) (h : safeChars s.toList = true) :
    responseExtract (serObj [("finding_summary", s)])
        = Json.obj [("finding_summary", Json.str s)]
    ∧ pyHasKey [("finding_summary", Json.str s)] "error" = false := by
  constructor
  · have hp : safePairsB [("finding_summary", s)] = true := by
      simp only [safePairsB, List.all_cons, List.all_nil, Bool.and_true, Bool.and_eq_true]
      exact ⟨by decide, h⟩
    have hr := responseExtract_serObj [("finding_summary", s)] hp (by simp)
    simpa [toJsonPairs] using hr
  · simp [pyHasKey, show ("finding_summary" == "error") = false from by decide]

/-- C1 witness: the amended statement at a concrete value. -/
theorem claimC1_witness :
    responseExtract (serObj [("finding_summary", "x")])
        = Json.obj [("finding_summary", Json.str "x")]
    ∧ pyHasKey [("finding_summary", Json.str "x")] "error" = false :=
  claimC1 "x" (by decide)

/-- C1 counterexample: the claim as stated is false — on the concrete
rawText `\x7b"finding_summary": "x"\x7d`, which parses as a JSON object
missing five of the six required keys, the extractor returns the parsed
object as a success record (no `error` key), not an error descriptor. -/
theorem claimC1_counterexample :
    responseExtract (serObj [("finding_summary", "x")])
        = Json.obj [("finding_summary", Json.str "x")]
    ∧ pyHasKey [("finding_summary", Json.str "x")] "error" = false := by
  exact ⟨rfl, rfl⟩

/-- C2 (code bug): when the remote call raises before `response.text` is
read, the `except` block's f-string reads the unassigned local `raw_text`,
so `get_risk_mapping` raises `UnboundLocalError` instead of returning a
parsing-style error descriptor: the exception does propagate out. -/
theorem claimC2_code_behavior (d : String) :
    get_risk_mapping (ModelResult.raised d)
      = Except.error (PyExc.unboundLocalError "raw_text") := rfl

/-- C3 (corrected): on parse failure the error descriptor carries the
fixed prefix, the failure description, and the first `min(50, length)`
characters of the `raw_text` variable at the point of failure — which is
the *cleaned* text (post trim and fence-strip), not the raw text prior to
cleaning.  When no fence is present the two coincide. -/
theorem claimC3 (t : List Char) (d : String)
    (hfail : json_loads (cleanRaw (pyTrim t)) = Except.error d) :
    responseExtract t
        = Json.obj [("error", Json.str (parseErrorMessage d (cleanRaw (pyTrim t))))]
    ∧ (aiErrHead.toList).isPrefixOf ((parseErrorMessage d (cleanRaw (pyTrim t))).toList) = true
    ∧ hasSubstr ((cleanRaw (pyTrim t)).take 50)
        ((parseErrorMessage d (cleanRaw (pyTrim t))).toList) = true := by
  refine ⟨?_, ?_, ?_⟩
  · simp only [responseExtract]
    rw [hfail]
  · have e : (parseErrorMessage d (cleanRaw (pyTrim t))).toList
        = aiErrHead.toList ++ (". Details: ".toList ++ (d.toList
          ++ (". Raw Response (start): ".toList
            ++ ((cleanRaw (pyTrim t)).take 50 ++ "...".toList)))) := by
      simp [parseErrorMessage, strToList_append, List.append_assoc]
    rw [e]
    exact isPrefixOf_append_self _ _
  · have e : (parseErrorMessage d (cleanRaw (pyTrim t))).toList
        = (aiErrHead.toList ++ (". Details: ".toList ++ (d.toList
          ++ ". Raw Response (start): ".toList)))
          ++ ((cleanRaw (pyTrim t)).take 50 ++ "...".toList) := by
      simp [parseErrorMessage, strToList_append, List.append_assoc]
    rw [e]
    exact hasSubstr_parts _ _ _

/-- C3 witness: the spec's own example, a refusal string with no fence,
where the snippet is the whole trimmed text. -/
theorem claimC3_witness :
    responseExtract ("Sorry, I cannot help with that".toList)
        = Json.obj [("error", Json.str (parseErrorMessage "Expecting value"
            (cleanRaw (pyTrim ("Sorry, I cannot help with that".toList)))))]
    ∧ (aiErrHead.toList).isPrefixOf ((parseErrorMessage "Expecting value"
        (cleanRaw (pyTrim ("Sorry, I cannot help with that".toList)))).toList) = true
    ∧ hasSubstr ((cleanRaw (pyTrim ("Sorry, I cannot help with that".toList))).take 50)
        ((parseErrorMessage "Expecting value"
          (cleanRaw (pyTrim ("Sorry, I cannot help with that".toList)))).toList) = true :=
  claimC3 _ "Expecting value" rfl

/-- C3 counterexample: on the fenced rawText `"```json\ngarbage\n```"`,
the produced message quotes the cleaned text `"\ngarbage\n"`, and the
first `min(50, length)` characters of the raw text prior to cleaning
(the whole 19-character string) do not occur in the message at all. -/
theorem claimC3_counterexample :
    responseExtract ("```json\ngarbage\n```".toList)
        = Json.obj [("error", Json.str
            "AI Parsing Error: Could not get structured output. Details: Expecting value. Raw Response (start): \ngarbage\n...")]
    ∧ hasSubstr (("```json\ngarbage\n```".toList).take 50)
        ("AI Parsing Error: Could not get structured output. Details: Expecting value. Raw Response (start): \ngarbage\n...".toList)
        = false := by
  exact ⟨rfl, rfl⟩

/-- C4 (confirmed): a rawText that is exactly a six-field JSON object with
no fences parses to a record whose six fields are the source values,
returned unchanged — any string value is accepted, including the empty
string (see the witness). -/
theorem claimC4 (a b c d e f : String)
    (ha : safeChars a.toList = true) (hb : safeChars b.toList = true)
    (hc : safeChars c.toList = true) (hd : safeChars d.toList = true)
    (he : safeChars e.toList = true) (hf : safeChars f.toList = true) :
    responseExtract (ser6 a b c d e f)
      = Json.obj [("finding_summary", Json.str a), ("mitre_tactic", Json.str b),
          ("mitre_technique", Json.str c), ("nist_function", Json.str d),
          ("nist_category", Json.str e), ("remediation_suggestion", Json.str f)] := by
  have hp : safePairsB [("finding_summary", a), ("mitre_tactic", b), ("mitre_technique", c),
      ("nist_function", d), ("nist_category", e), ("remediation_suggestion", f)] = true := by
    simp only [safePairsB, List.all_cons, List.all_nil, Bool.and_true, Bool.and_eq_true]
    exact ⟨⟨by decide, ha⟩, ⟨by decide, hb⟩, ⟨by decide, hc⟩,
      ⟨by decide, hd⟩, ⟨by decide, he⟩, ⟨by decide, hf⟩⟩
  have hr := responseExtract_serObj _ hp (by simp)
  simpa [ser6, toJsonPairs] using hr

/-- C4 witness: concrete values, including an empty remediation string. -/
theorem claimC4_witness :
    responseExtract (ser6 "Excessive password expiry on service account" "Persistence"
        "T1098 - Account Manipulation" "Protect" "PR.AC-1" "")
      = Json.obj [("finding_summary", Json.str "Excessive password expiry on service account"),
          ("mitre_tactic", Json.str "Persistence"),
          ("mitre_technique", Json.str "T1098 - Account Manipulation"),
          ("nist_function", Json.str "Protect"),
          ("nist_category", Json.str "PR.AC-1"),
          ("remediation_suggestion", Json.str "")] :=
  claimC4 _ _ _ _ _ _ (by decide) (by decide) (by decide) (by decide) (by decide) (by decide)

/-- C5 (confirmed): wrapping a six-field object in a JSON-tagged fence or
in a plain fence yields the same parsed record as the unwrapped object. -/
theorem claimC5 (a b c d e f : String)
    (ha : safeChars a.toList = true) (hb : safeChars b.toList = true)
    (hc : safeChars c.toList = true) (hd : safeChars d.toList = true)
    (he : safeChars e.toList = true) (hf : safeChars f.toList = true) :
    responseExtract (wrapJson (ser6 a b c d e f)) = responseExtract (ser6 a b c d e f)
    ∧ responseExtract (wrapPlain (ser6 a b c d e f)) = responseExtract (ser6 a b c d e f) := by
  have hp : safePairsB [("finding_summary", a), ("mitre_tactic", b), ("mitre_technique", c),
      ("nist_function", d), ("nist_category", e), ("remediation_suggestion", f)] = true := by
    simp only [safePairsB, List.all_cons, List.all_nil, Bool.and_true, Bool.and_eq_true]
    exact ⟨⟨by decide, ha⟩, ⟨by decide, hb⟩, ⟨by decide, hc⟩,
      ⟨by decide, hd⟩, ⟨by decide, he⟩, ⟨by decide, hf⟩⟩
  constructor
  · rw [show ser6 a b c d e f = serObj [("finding_summary", a), ("mitre_tactic", b),
        ("mitre_technique", c), ("nist_function", d), ("nist_category", e),
        ("remediation_suggestion", f)] from rfl,
      responseExtract_wrapJson _ hp (by simp), responseExtract_serObj _ hp (by simp)]
  · rw [show ser6 a b c d e f = serObj [("finding_summary", a), ("mitre_tactic", b),
        ("mitre_technique", c), ("nist_function", d), ("nist_category", e),
        ("remediation_suggestion", f)] from rfl,
      responseExtract_wrapPlain _ hp (by simp), responseExtract_serObj _ hp (by simp)]

/-- C5 witness: the fence-invariance at concrete field values. -/
theorem claimC5_witness :
    responseExtract (wrapJson (ser6 "s" "t" "u" "v" "w" "x"))
        = responseExtract (ser6 "s" "t" "u" "v" "w" "x")
    ∧ responseExtract (wrapPlain (ser6 "s" "t" "u" "v" "w" "x"))
        = responseExtract (ser6 "s" "t" "u" "v" "w" "x") :=
  claimC5 _ _ _ _ _ _ (by decide) (by decide) (by decide) (by decide) (by decide) (by decide)

/-- C6 (confirmed): the JSON-tagged fence test is taken first: any trimmed
text beginning with the JSON-tagged opening fence also passes the plain
fence prefix test, yet `cleanRaw` computes the JSON-tagged branch (strip
with the character set of `"```json"`, then with the backtick set). -/
theorem claimC6 (t : List Char) (h : ("```json".toList).isPrefixOf t = true) :
    ("```".toList).isPrefixOf t = true
    ∧ cleanRaw t = pyStripChars ("```".toList) (pyStripChars ("```json".toList) t) := by
  constructor
  · obtain ⟨r, rfl⟩ := eq_append_of_isPrefixOf h
    rw [show "```json".toList = "```".toList ++ "json".toList from by decide,
      List.append_assoc]
    exact isPrefixOf_append_self _ _
  · unfold cleanRaw
    rw [if_pos h]

/-- C6 witness: a concrete JSON-tagged fenced text. -/
theorem claimC6_witness :
    ("```".toList).isPrefixOf ("```json stuff".toList) = true
    ∧ cleanRaw ("```json stuff".toList)
        = pyStripChars ("```".toList) (pyStripChars ("```json".toList) ("```json stuff".toList)) :=
  claimC6 _ (by decide)

/-- C7 (confirmed): the prompt builder embeds the finding text verbatim as
a contiguous substring of the fixed instruction template; it is a total
function of the finding text (no escaping, no truncation, no failure). -/
theorem claimC7 (t : String) (h : t ≠ "") :
    hasSubstr t.toList ((MASTER_PROMPT t).toList) = true := by
  have e : (MASTER_PROMPT t).toList = promptHead.toList ++ (t.toList ++ "\n".toList) := by
    simp [MASTER_PROMPT, strToList_append, List.append_assoc]
  rw [e]
  exact hasSubstr_parts _ _ _

/-- C7 witness: the spec's example finding. -/
theorem claimC7_witness :
    hasSubstr ("Account 'svc_backup' has a password that expires in 365 days, violating the 90-day policy.".toList)
      ((MASTER_PROMPT "Account 'svc_backup' has a password that expires in 365 days, violating the 90-day policy.").toList) = true :=
  claimC7 _ (by decide)

/-- C8 (confirmed): with the credential absent from the environment at
click time, the handler shows the API-key error and never consults the
model — the outcome is the same for every possible model result `m` —
and the process continues (the outcome is a rendered error, not a crash
or a stop). -/
theorem claimC8 (input : List Char) (m : ModelResult) (h : input ≠ []) :
    analyzeClick true input false m = UIOutcome.apiKeyError := by
  cases input with
  | nil => exact absurd rfl h
  | cons c l => simp [analyzeClick]

/-- C8 witness: concrete input and model result. -/
theorem claimC8_witness :
    analyzeClick true ("x".toList) false (ModelResult.ok []) = UIOutcome.apiKeyError :=
  claimC8 _ (ModelResult.ok []) (by decide)

/-- C9 (confirmed): for a parsed JSON object, the handler shows the error
banner exactly when the object contains the key `"error"` — so a
successfully parsed model response that happens to include an `error`
field is rendered as a failure, indistinguishable from a parse failure. -/
theorem claimC9 (kvs : List (String × Json)) :
    showsBanner (renderMapping (Json.obj kvs)) = pyHasKey kvs "error" := by
  by_cases h : pyHasKey kvs "error" = true
  · obtain ⟨v, hv⟩ := getLast_of_hasKey h
    simp [renderMapping, pyContainsStr, h, pyGetItem, hv, showsBanner]
  · have h' : pyHasKey kvs "error" = false := by
      cases hcase : pyHasKey kvs "error" with
      | true => exact absurd hcase h
      | false => rfl
    simp [renderMapping, pyContainsStr, h', showsBanner]

/-- C10 (confirmed): on the success-render path every field is read with a
default of `N/A`: rendering an object never raises, and any of the six
schema fields missing from the record is displayed as `N/A`. -/
theorem claimC10 (kvs : List (String × Json)) :
    (∀ e, renderMapping (Json.obj kvs) ≠ RenderOutcome.raised e)
    ∧ (∀ k, k ∈ sixKeys → pyHasKey kvs "error" = false → pyHasKey kvs k = false →
        resultField (renderMapping (Json.obj kvs)) k = some NA) := by
  constructor
  · intro e
    by_cases h : pyHasKey kvs "error" = true
    · obtain ⟨v, hv⟩ := getLast_of_hasKey h
      simp [renderMapping, pyContainsStr, h, pyGetItem, hv]
    · have h' : pyHasKey kvs "error" = false := by
        cases hcase : pyHasKey kvs "error" with
        | true => exact absurd hcase h
        | false => rfl
      simp [renderMapping, pyContainsStr, h']
  · intro k hk herr hmiss
    have hnone := getLast_of_not_hasKey hmiss
    simp only [sixKeys, List.mem_cons, List.not_mem_nil, or_false] at hk
    rcases hk with rfl | rfl | rfl | rfl | rfl | rfl <;>
      simp [renderMapping, pyContainsStr, herr, resultField, hnone]

/-- C10 witness: a record holding only a summary renders `N/A` for the
missing tactic field. -/
theorem claimC10_witness :
    resultField (renderMapping (Json.obj [("finding_summary", Json.str "s")])) "mitre_tactic"
      = some NA :=
  (claimC10 [("finding_summary", Json.str "s")]).2 "mitre_tactic"
    (by simp [sixKeys]) (by decide) (by decide)
